import Mathlib

/-!
Shallow embedding of the pulumi-netcup DNS record provider
(`provider/dns_record.go` and `provider/netcup_client.go`).

Go strings are modelled as Lean `String`; `*string` as `Option String`.
Go's `strings.SplitN(s, ":", 2)`, `strings.Contains`, `strings.ToUpper`
and `strings.ToLower` are modelled on the character list `String.data`
(Go strings are byte sequences; all inputs of interest are ASCII, where
`Char.toUpper`/`Char.toLower` agree with Go's case mapping).
-/

namespace Netcup

/-- Go `strings.ToUpper`, as a character-wise map. -/
def goToUpper (s : String) : String := ⟨s.data.map Char.toUpper⟩

/-- Go `strings.ToLower`, as a character-wise map. -/
def goToLower (s : String) : String := ⟨s.data.map Char.toLower⟩

/-- Go `strings.Contains(s, sub)`: substring containment. -/
def goContains (s sub : String) : Bool := decide (sub.data <:+: s.data)

/-- Split a character list at the first occurrence of `sep`:
`none` when `sep` does not occur, otherwise the parts strictly before and
after the first occurrence.  This is Go's `strings.SplitN(s, sep, 2)`
restricted to a one-character separator (preceded by the
`strings.Contains` guard used in `parseCompositeID`). -/
def splitAtFirst : List Char → Char → Option (List Char × List Char)
  | [], _ => none
  | c :: cs, sep =>
    if c = sep then some ([], cs)
    else
      match splitAtFirst cs sep with
      | none => none
      | some (pre, post) => some (c :: pre, post)

/-- `createCompositeID` from `dns_record.go`: `domain + ":" + recordID`. -/
def createCompositeID (domain recordID : String) : String :=
  domain ++ ":" ++ recordID

/-- `parseCompositeID` from `dns_record.go`: requires a `:` to occur
(`strings.Contains`), splits at the first `:` (`strings.SplitN(…, ":", 2)`)
and requires both parts to be non-empty. -/
def parseCompositeID (compositeID : String) : Except String (String × String) :=
  match splitAtFirst compositeID.data ':' with
  | none =>
      .error ("composite ID must be in format 'domain:recordID', got: " ++ compositeID)
  | some (pre, post) =>
      if pre = [] ∨ post = [] then
        .error ("invalid composite ID format: " ++ compositeID)
      else
        .ok (⟨pre⟩, ⟨post⟩)

/-- `buildFQDN` from `dns_record.go`. -/
def buildFQDN (name domain : String) : String :=
  if name = "@" ∨ name = "" then domain
  else name ++ "." ++ domain

/- ### Lemmas about `splitAtFirst` -/

theorem splitAtFirst_eq_none {l : List Char} {sep : Char} :
    splitAtFirst l sep = none ↔ sep ∉ l := by
  induction l with
  | nil => simp [splitAtFirst]
  | cons c cs ih =>
    by_cases hc : c = sep
    · subst hc
      simp [splitAtFirst]
    · rw [splitAtFirst, if_neg hc]
      cases h : splitAtFirst cs sep with
      | none =>
        have h1 : sep ∉ cs := ih.mp h
        have h2 : ¬ sep = c := fun he => hc he.symm
        simp [List.mem_cons, h1, h2]
      | some p =>
        have hsep : sep ∈ cs := by
          by_contra hn
          rw [ih.mpr hn] at h
          cases h
        rcases p with ⟨pre, post⟩
        simp [List.mem_cons, hsep]

theorem splitAtFirst_append {l₁ l₂ : List Char} {sep : Char} (h : sep ∉ l₁) :
    splitAtFirst (l₁ ++ sep :: l₂) sep = some (l₁, l₂) := by
  induction l₁ with
  | nil => simp [splitAtFirst]
  | cons c cs ih =>
    have hc : c ≠ sep := fun hc => h (hc ▸ List.mem_cons_self c cs)
    have hcs : sep ∉ cs := fun hm => h (List.mem_cons_of_mem c hm)
    simp only [List.cons_append, splitAtFirst, if_neg hc]
    rw [show splitAtFirst (cs.append (sep :: l₂)) sep = some (cs, l₂) from ih hcs]

theorem splitAtFirst_eq_takeDrop {l : List Char} {sep : Char} (h : sep ∈ l) :
    splitAtFirst l sep =
      some (l.takeWhile (· != sep), (l.dropWhile (· != sep)).tail) := by
  induction l with
  | nil => cases h
  | cons c cs ih =>
    by_cases hc : c = sep
    · subst hc
      simp [splitAtFirst, List.takeWhile_cons, List.dropWhile_cons]
    · have hcs : sep ∈ cs := by
        rcases List.mem_cons.mp h with h' | h'
        · exact absurd h'.symm hc
        · exact h'
      rw [splitAtFirst, if_neg hc, ih hcs]
      simp [List.takeWhile_cons, List.dropWhile_cons, hc]

/- ### Composite-identifier codec -/

theorem parseCompositeID_create_ok (d r : String)
    (hd : d.data ≠ []) (hr : r.data ≠ []) (hc : ':' ∉ d.data) :
    parseCompositeID (createCompositeID d r) = .ok (d, r) := by
  have hdata : (createCompositeID d r).data = d.data ++ ':' :: r.data := by
    show (d ++ ":" ++ r).data = _
    rw [String.data_append, String.data_append, List.append_assoc]
    rfl
  unfold parseCompositeID
  rw [hdata, splitAtFirst_append hc]
  simp [hd, hr]

/-- C1 counterexample: the identifier "a:b:c" contains two ':' separators,
yet decoding succeeds, returning everything after the first ':' as the
record id — refuting that decoding fails whenever there is more than one
separator. -/
theorem C1_counterexample :
    parseCompositeID "a:b:c" = .ok ("a", "b:c") ∧ "a:b:c".data.count ':' = 2 := by
  exact ⟨rfl, by decide⟩

/-- C1 (amended): decoding succeeds exactly when the identifier contains at
least one ':' and the parts strictly before and strictly after the FIRST ':'
are both non-empty; in that case the part before the first ':' is returned
as the domain and everything after it (which may itself contain ':') as the
record id.  Any identifier violating this fails with an invalid-identifier
error. -/
theorem C1_parse_succeeds_iff (id : String) :
    ((∃ d r, parseCompositeID id = .ok (d, r)) ↔
      (':' ∈ id.data ∧ id.data.takeWhile (· != ':') ≠ [] ∧
        (id.data.dropWhile (· != ':')).tail ≠ []))
    ∧ (∀ d r, parseCompositeID id = .ok (d, r) →
        d.data = id.data.takeWhile (· != ':') ∧
        r.data = (id.data.dropWhile (· != ':')).tail) := by
  by_cases hmem : ':' ∈ id.data
  · have hs := @splitAtFirst_eq_takeDrop id.data ':' hmem
    constructor
    · constructor
      · rintro ⟨d, r, hok⟩
        unfold parseCompositeID at hok
        rw [hs] at hok
        dsimp only at hok
        by_cases h0 : id.data.takeWhile (· != ':') = [] ∨
            (id.data.dropWhile (· != ':')).tail = []
        · rw [if_pos h0] at hok
          cases hok
        · push_neg at h0
          exact ⟨hmem, h0.1, h0.2⟩
      · rintro ⟨-, h1, h2⟩
        refine ⟨⟨id.data.takeWhile (· != ':')⟩, ⟨(id.data.dropWhile (· != ':')).tail⟩, ?_⟩
        unfold parseCompositeID
        rw [hs]
        dsimp only
        rw [if_neg (not_or.mpr ⟨h1, h2⟩)]
    · intro d r hok
      unfold parseCompositeID at hok
      rw [hs] at hok
      dsimp only at hok
      by_cases h0 : id.data.takeWhile (· != ':') = [] ∨
          (id.data.dropWhile (· != ':')).tail = []
      · rw [if_pos h0] at hok
        cases hok
      · rw [if_neg h0] at hok
        injection hok with hpair
        injection hpair with h1 h2
        exact ⟨by rw [← h1], by rw [← h2]⟩
  · have hs : splitAtFirst id.data ':' = none := splitAtFirst_eq_none.mpr hmem
    refine ⟨⟨?_, ?_⟩, ?_⟩
    · rintro ⟨d, r, hok⟩
      unfold parseCompositeID at hok
      rw [hs] at hok
      cases hok
    · rintro ⟨h, -⟩
      exact absurd h hmem
    · intro d r hok
      unfold parseCompositeID at hok
      rw [hs] at hok
      cases hok

/-- C1 witness: at the concrete identifier "a:b", the returned domain and
record id are the first-split parts. -/
theorem C1_witness :
    "a".data = "a:b".data.takeWhile (· != ':') ∧
      "b".data = ("a:b".data.dropWhile (· != ':')).tail :=
  (C1_parse_succeeds_iff "a:b").2 "a" "b" rfl

/-- C2: for valid inputs — a non-empty domain that contains no ':' and a
non-empty record id — decoding the encoding is the identity and returns no
error. -/
theorem C2_decode_encode_identity (d r : String)
    (hd : d ≠ "") (hr : r ≠ "") (hc : ':' ∉ d.data) :
    parseCompositeID (createCompositeID d r) = .ok (d, r) :=
  parseCompositeID_create_ok d r
    (fun h => hd (String.ext h)) (fun h => hr (String.ext h)) hc

/-- C2 witness at a concrete domain and record id. -/
theorem C2_witness :
    parseCompositeID (createCompositeID "example.com" "123456") =
      .ok ("example.com", "123456") :=
  C2_decode_encode_identity "example.com" "123456" (by decide) (by decide) (by decide)

/- ### Data model -/

/-- `DNSRecordArgs` from `dns_record.go` (the Go field `Type` is a reserved
word in Lean and is rendered `Typ`; the Go `*string` priority is an
`Option String`). -/
structure DNSRecordArgs where
  Domain : String
  Name : String
  Typ : String
  Value : String
  Priority : Option String

/-- `DNSRecordState` from `dns_record.go`: the embedded args plus the
backend record id and derived FQDN. -/
structure DNSRecordState extends DNSRecordArgs where
  RecordID : String
  FQDN : String

/-- `DnsRecordInfo` from `netcup_client.go` (Go zero values as defaults). -/
structure DnsRecordInfo where
  ID : String := ""
  Hostname : String := ""
  Typ : String := ""
  Priority : String := ""
  Destination : String := ""
  DeleteRecord : Bool := false
  State : String := ""

/-- `p.CheckFailure`: a validation failure attributed to one input property. -/
structure CheckFailure where
  Property : String
  Reason : String
deriving DecidableEq

/- ### Validation (`dns_record.go`) -/

/-- `getValidTypesList` from `dns_record.go`. -/
def getValidTypesList : List String :=
  ["A", "AAAA", "MX", "CNAME", "CAA", "SRV", "TXT", "TLSA", "NS", "DS",
    "OPENPGPKEY", "SMIMEA", "SSHFP"]

/-- `getValidTypesMap` from `dns_record.go`, as the membership predicate of
the valid-type set (the Go map has exactly the keys of the list, all
mapped to `true`). -/
def getValidTypesMap (t : String) : Bool := getValidTypesList.contains t

/-- `isValidDomain` from `dns_record.go`. -/
def isValidDomain (domain : String) : Bool :=
  if domain = "" then false
  else !(goContains domain " ") && goContains domain "."

/-- Go's `fmt` rendering of `getValidTypesList` (`%v` of a string slice),
as it appears in the unsupported-type failure reason. -/
def validTypesRendered : String :=
  "[A AAAA MX CNAME CAA SRV TXT TLSA NS DS OPENPGPKEY SMIMEA SSHFP]"

/-- The unsupported-type failure of `validateDNSRecordWithFailures`. -/
def typeFailures (args : DNSRecordArgs) : List CheckFailure :=
  if !(getValidTypesMap (goToUpper args.Typ)) then
    [⟨"type", "Unsupported DNS record type: " ++ args.Typ ++
      ". Valid types are: " ++ validTypesRendered⟩]
  else []

/-- The domain failures of `validateDNSRecordWithFailures`. -/
def domainFailures (args : DNSRecordArgs) : List CheckFailure :=
  if args.Domain = "" then [⟨"domain", "Domain is required"⟩]
  else if !(isValidDomain args.Domain) then [⟨"domain", "Domain format is invalid"⟩]
  else []

/-- The empty-name failure of `validateDNSRecordWithFailures`. -/
def nameFailures (args : DNSRecordArgs) : List CheckFailure :=
  if args.Name = "" then [⟨"name", "Name is required"⟩] else []

/-- The empty-value failure of `validateDNSRecordWithFailures`. -/
def valueFailures (args : DNSRecordArgs) : List CheckFailure :=
  if args.Value = "" then [⟨"value", "Value is required"⟩] else []

/-- The type-specific switch of `validateDNSRecordWithFailures`
(cases `"MX", "SRV"` and `"CNAME"` on the uppercased type). -/
def typeSpecificFailures (args : DNSRecordArgs) : List CheckFailure :=
  if goToUpper args.Typ = "MX" ∨ goToUpper args.Typ = "SRV" then
    if args.Priority = none ∨ args.Priority = some "" then
      [⟨"priority", "Priority is required for " ++ goToUpper args.Typ ++ " records"⟩]
    else []
  else if goToUpper args.Typ = "CNAME" then
    if args.Name = "@" then
      [⟨"name", "CNAME records cannot be created for the root domain (@)"⟩]
    else []
  else []

/-- `validateDNSRecordWithFailures` from `dns_record.go`: one failure per
violated field, appended in source order (type, domain, name, value, then
the type-specific switch on the uppercased type). -/
def validateDNSRecordWithFailures (args : DNSRecordArgs) : List CheckFailure :=
  typeFailures args ++ domainFailures args ++ nameFailures args ++
    valueFailures args ++ typeSpecificFailures args

/-- `requiresPriority` from `dns_record.go`: the switch on the uppercased
type with cases `"MX", "SRV"`. -/
def requiresPriority (recordType : String) : Bool :=
  goToUpper recordType == "MX" || goToUpper recordType == "SRV"

/-- `priorityChanged` from `dns_record.go` (`*string` arguments as
`Option String`, a `nil` pointer dereferencing to the empty string). -/
def priorityChanged (inputPriority statePriority : Option String)
    (recordType : String) : Bool :=
  let inputVal := inputPriority.getD ""
  let stateVal := statePriority.getD ""
  if !(requiresPriority recordType) then
    let inputNormalized := inputVal == "" || inputVal == "0"
    let stateNormalized := stateVal == "" || stateVal == "0"
    (inputNormalized != stateNormalized) && (inputVal != stateVal)
  else
    inputVal != stateVal

/- ### Diff (`dns_record.go`) -/

/-- `p.PropertyDiff.Kind` values used by `DNSRecord.Diff`. -/
inductive PropertyDiffKind where
  | update
  | updateReplace

/-- `p.PropertyDiff` as used by `DNSRecord.Diff`. -/
structure PropertyDiff where
  Kind : PropertyDiffKind
  InputDiff : Bool

/-- `infer.DiffResponse`; the Go `map[string]PropertyDiff` is modelled as
an association list in insertion order (all keys are distinct). -/
structure DiffResponse where
  DeleteBeforeReplace : Bool
  HasChanges : Bool
  DetailedDiff : List (String × PropertyDiff)

/-- `DNSRecord.Diff` from `dns_record.go`: domain/name/type differences set
both flags and an `UpdateReplace` entry; value and priority differences set
only `HasChanges` with an `Update` entry; an FQDN mismatch adds a
non-input entry without touching either flag. -/
def diffOp (inputs : DNSRecordArgs) (state : DNSRecordState) : DiffResponse :=
  let domainChanged := inputs.Domain != state.Domain
  let nameChanged := inputs.Name != state.Name
  let typeChanged := inputs.Typ != state.Typ
  let valueChanged := inputs.Value != state.Value
  let prChanged := priorityChanged inputs.Priority state.Priority inputs.Typ
  let fqdnChanged := buildFQDN inputs.Name inputs.Domain != state.FQDN
  { DeleteBeforeReplace := domainChanged || nameChanged || typeChanged
    HasChanges := domainChanged || nameChanged || typeChanged || valueChanged || prChanged
    DetailedDiff :=
      (if domainChanged then [("domain", ⟨.updateReplace, true⟩)] else []) ++
      (if nameChanged then [("name", ⟨.updateReplace, true⟩)] else []) ++
      (if typeChanged then [("type", ⟨.updateReplace, true⟩)] else []) ++
      (if valueChanged then [("value", ⟨.update, true⟩)] else []) ++
      (if prChanged then [("priority", ⟨.update, true⟩)] else []) ++
      (if fqdnChanged then [("fqdn", ⟨.update, false⟩)] else []) }

/- ### C6: priority comparison in Diff -/

/-- C6 counterexample: for the non-priority type "A" and the two distinct
priorities "5" and "7" — neither of them empty or "0" — `priorityChanged`
reports no change, refuting that any pair of distinct priority values
outside the normalized-empty class is reported as a change. -/
theorem C6_counterexample :
    priorityChanged (some "5") (some "7") "A" = false ∧
      requiresPriority "A" = false ∧ ("5" : String) ≠ "7" ∧
      ¬(("5" : String) = "" ∨ ("5" : String) = "0") ∧
      ¬(("7" : String) = "" ∨ ("7" : String) = "0") :=
  ⟨by decide, by decide, by decide, by decide, by decide⟩

lemma normClass_true {a : String} (h : a = "" ∨ a = "0") :
    ((a == "") || (a == "0")) = true := by
  rcases h with h | h <;> simp [h]

lemma normClass_false {a : String} (h : ¬(a = "" ∨ a = "0")) :
    ((a == "") || (a == "0")) = false := by
  push_neg at h
  simp only [Bool.or_eq_false_iff, beq_eq_false_iff_ne, ne_eq]
  exact ⟨h.1, h.2⟩

lemma normalizedBne_and_bne_iff (a b : String) :
    ((((a == "") || (a == "0")) != ((b == "") || (b == "0"))) && (a != b)) = true ↔
      ((a = "" ∨ a = "0") ↔ ¬(b = "" ∨ b = "0")) := by
  by_cases hA : a = "" ∨ a = "0" <;> by_cases hB : b = "" ∨ b = "0"
  · rw [normClass_true hA, normClass_true hB]
    simp [bne, hA, hB]
  · rw [normClass_true hA, normClass_false hB]
    have hab : a ≠ b := fun he => hB (he ▸ hA)
    simp [bne, hab, hA, hB]
  · rw [normClass_false hA, normClass_true hB]
    have hab : a ≠ b := fun he => hA (by rw [he]; exact hB)
    simp [bne, hab, hA, hB]
  · rw [normClass_false hA, normClass_false hB]
    simp [bne, hA, hB]

/-- C6 (amended): for a record type that does not require a priority, the
comparison reports a change exactly when one side (nil defaulting to the
empty string) lies in the normalized class {"", "0"} and the other does
not — two distinct values both outside that class compare as unchanged;
for MX/SRV the two values are compared literally, so nil/empty versus "0"
is a change. -/
theorem C6_priority_comparison (ip sp : Option String) (ty : String) :
    priorityChanged ip sp ty = true ↔
      (if requiresPriority ty = true then ip.getD "" ≠ sp.getD ""
       else ((ip.getD "" = "" ∨ ip.getD "" = "0") ↔
          ¬(sp.getD "" = "" ∨ sp.getD "" = "0"))) := by
  cases hrp : requiresPriority ty with
  | true => simp [priorityChanged, hrp, bne_iff_ne]
  | false =>
    rw [if_neg (by simp [hrp])]
    unfold priorityChanged
    rw [hrp]
    simpa using normalizedBne_and_bne_iff (ip.getD "") (sp.getD "")

/- ### C7: destructive versus in-place diffs -/

/-- C7: `Diff` reports delete-before-replace exactly when domain, name or
type differ; a value or priority difference alone sets `HasChanges` but
never `DeleteBeforeReplace`. -/
theorem C7_destructive_iff (inputs : DNSRecordArgs) (state : DNSRecordState) :
    ((diffOp inputs state).DeleteBeforeReplace = true ↔
      (inputs.Domain ≠ state.Domain ∨ inputs.Name ≠ state.Name ∨
        inputs.Typ ≠ state.Typ))
    ∧ (inputs.Domain = state.Domain → inputs.Name = state.Name →
        inputs.Typ = state.Typ →
        (inputs.Value ≠ state.Value ∨
          priorityChanged inputs.Priority state.Priority inputs.Typ = true) →
        (diffOp inputs state).HasChanges = true ∧
          (diffOp inputs state).DeleteBeforeReplace = false) := by
  constructor
  · simp [diffOp, bne_iff_ne, or_assoc]
  · intro h1 h2 h3 h4
    have hDBR : (diffOp inputs state).DeleteBeforeReplace = false := by
      simp [diffOp, h1, h2, h3]
    rcases h4 with h4 | h4
    · exact ⟨by simp [diffOp, bne_iff_ne, h4], hDBR⟩
    · exact ⟨by simp [diffOp, h4], hDBR⟩

/-- C7 witness: a value-only difference at concrete records sets
`HasChanges` without `DeleteBeforeReplace`. -/
theorem C7_witness :
    (diffOp ⟨"example.com", "www", "A", "5.6.7.8", none⟩
        ⟨⟨"example.com", "www", "A", "1.2.3.4", none⟩, "42", "www.example.com"⟩).HasChanges
        = true ∧
      (diffOp ⟨"example.com", "www", "A", "5.6.7.8", none⟩
        ⟨⟨"example.com", "www", "A", "1.2.3.4", none⟩, "42",
          "www.example.com"⟩).DeleteBeforeReplace = false :=
  (C7_destructive_iff _ _).2 rfl rfl rfl (Or.inl (by decide))

/- ### C8: priority validation -/

lemma priority_notin_typeFailures (args : DNSRecordArgs) :
    "priority" ∉ (typeFailures args).map CheckFailure.Property := by
  unfold typeFailures
  split
  · simp only [List.map_cons, List.map_nil, List.mem_singleton]
    decide
  · simp

lemma priority_notin_domainFailures (args : DNSRecordArgs) :
    "priority" ∉ (domainFailures args).map CheckFailure.Property := by
  unfold domainFailures
  split
  · simp only [List.map_cons, List.map_nil, List.mem_singleton]
    decide
  · split
    · simp only [List.map_cons, List.map_nil, List.mem_singleton]
      decide
    · simp

lemma priority_notin_nameFailures (args : DNSRecordArgs) :
    "priority" ∉ (nameFailures args).map CheckFailure.Property := by
  unfold nameFailures
  split
  · simp only [List.map_cons, List.map_nil, List.mem_singleton]
    decide
  · simp

lemma priority_notin_valueFailures (args : DNSRecordArgs) :
    "priority" ∉ (valueFailures args).map CheckFailure.Property := by
  unfold valueFailures
  split
  · simp only [List.map_cons, List.map_nil, List.mem_singleton]
    decide
  · simp

lemma priority_mem_typeSpecific_iff (args : DNSRecordArgs) :
    ("priority" ∈ (typeSpecificFailures args).map CheckFailure.Property) ↔
      ((goToUpper args.Typ = "MX" ∨ goToUpper args.Typ = "SRV") ∧
        (args.Priority = none ∨ args.Priority = some "")) := by
  unfold typeSpecificFailures
  split_ifs <;> simp_all

lemma priority_mem_validate_iff (args : DNSRecordArgs) :
    ("priority" ∈ (validateDNSRecordWithFailures args).map CheckFailure.Property) ↔
      ((goToUpper args.Typ = "MX" ∨ goToUpper args.Typ = "SRV") ∧
        (args.Priority = none ∨ args.Priority = some "")) := by
  unfold validateDNSRecordWithFailures
  simp only [List.map_append, List.mem_append]
  rw [← priority_mem_typeSpecific_iff args]
  simp [priority_notin_typeFailures args, priority_notin_domainFailures args,
    priority_notin_nameFailures args, priority_notin_valueFailures args]

/-- C8: a desired record whose (uppercased) type is MX or SRV and whose
priority is nil or empty gets a validation failure attributed to
"priority"; a record of any other supported type never gets a priority
failure. -/
theorem C8_priority_validation (args : DNSRecordArgs) :
    ((goToUpper args.Typ = "MX" ∨ goToUpper args.Typ = "SRV") →
      (args.Priority = none ∨ args.Priority = some "") →
      "priority" ∈ (validateDNSRecordWithFailures args).map CheckFailure.Property)
    ∧ (getValidTypesMap (goToUpper args.Typ) = true →
      goToUpper args.Typ ≠ "MX" → goToUpper args.Typ ≠ "SRV" →
      "priority" ∉ (validateDNSRecordWithFailures args).map CheckFailure.Property) := by
  constructor
  · intro hty hpr
    exact (priority_mem_validate_iff args).mpr ⟨hty, hpr⟩
  · intro _ hmx hsrv hmem
    rcases (priority_mem_validate_iff args).mp hmem with ⟨hty | hty, -⟩
    exacts [hmx hty, hsrv hty]

/-- C8 witness: an MX record without priority fails on "priority"; an A
record without priority gets no priority failure. -/
theorem C8_witness :
    "priority" ∈ (validateDNSRecordWithFailures
        ⟨"example.com", "mail", "MX", "mail.example.com", none⟩).map
        CheckFailure.Property ∧
      "priority" ∉ (validateDNSRecordWithFailures
        ⟨"example.com", "www", "A", "1.2.3.4", none⟩).map CheckFailure.Property :=
  ⟨(C8_priority_validation _).1 (Or.inl (by decide)) (Or.inl rfl),
    (C8_priority_validation _).2 (by decide) (by decide) (by decide)⟩

/- ### Record matcher / ID resolver (`netcup_client.go`, `CreateDnsRecord`) -/

/-- The match predicate of the post-write selection loop in
`NetcupClient.CreateDnsRecord`: hostname, type and destination must equal
the just-submitted values; the priority is additionally required to match
only when the submitted type is exactly "MX" and the submitted priority is
non-empty; records with an empty backend id are skipped. -/
def createMatch (name recordType value priority : String)
    (record : DnsRecordInfo) : Bool :=
  (if recordType == "MX" && priority != "" then
    record.Hostname == name && record.Typ == recordType &&
      record.Destination == value && record.Priority == priority
   else
    record.Hostname == name && record.Typ == recordType &&
      record.Destination == value) &&
  record.ID != ""

/-- The post-write id-resolution loop of `NetcupClient.CreateDnsRecord`
over the re-fetched record list: the first match in returned order wins. -/
def resolveCreatedRecordID (updatedRecords : List DnsRecordInfo)
    (name recordType value priority : String) : Except String String :=
  match updatedRecords.find? (createMatch name recordType value priority) with
  | some record => .ok record.ID
  | none => .error
      "DNS record was created successfully but no record ID was found. This may indicate an API issue"

/-- C5 counterexample: for an SRV creation submitted with priority "10",
the resolver selects a re-fetched record that matches only on
hostname/type/destination but carries the different priority "99" —
refuting that such a record is never selected. -/
theorem C5_counterexample :
    resolveCreatedRecordID
      [{ ID := "1", Hostname := "_sip._tcp", Typ := "SRV",
         Priority := "99", Destination := "0 5 sip.example.com" }]
      "_sip._tcp" "SRV" "0 5 sip.example.com" "10" = .ok "1" ∧
    ("99" : String) ≠ "10" := ⟨rfl, by decide⟩

/-- C5 (amended): the resolver selects the first re-fetched record whose
hostname, type and destination match the submitted values and whose
backend id is non-empty; the priority is additionally matched only when
the submitted type is MX with a non-empty priority — for SRV the submitted
priority never influences the selection. -/
theorem C5_match_priority_only_for_MX
    (updated : List DnsRecordInfo) (name value p p₁ p₂ rid : String) :
    (resolveCreatedRecordID updated name "SRV" value p₁ =
      resolveCreatedRecordID updated name "SRV" value p₂)
    ∧ (p ≠ "" → resolveCreatedRecordID updated name "MX" value p = .ok rid →
        ∃ record ∈ updated, record.ID = rid ∧ record.Hostname = name ∧
          record.Typ = "MX" ∧ record.Destination = value ∧
          record.Priority = p) := by
  constructor
  · have hSRV : (("SRV" : String) == "MX") = false := rfl
    have hpred : createMatch name "SRV" value p₁ = createMatch name "SRV" value p₂ := by
      funext record
      simp [createMatch, hSRV]
    unfold resolveCreatedRecordID
    rw [hpred]
  · intro hp hok
    unfold resolveCreatedRecordID at hok
    cases hfind : updated.find? (createMatch name "MX" value p) with
    | none => rw [hfind] at hok; cases hok
    | some record =>
      rw [hfind] at hok
      injection hok with hid
      have hmem := List.mem_of_find?_eq_some hfind
      have hpred := List.find?_some hfind
      have hcond : ((("MX" : String) == "MX") && (p != "")) = true := by
        simp [bne_iff_ne, hp]
      unfold createMatch at hpred
      rw [if_pos hcond] at hpred
      simp only [Bool.and_eq_true, beq_iff_eq] at hpred
      obtain ⟨⟨⟨⟨hH, hT⟩, hD⟩, hP⟩, -⟩ := hpred
      exact ⟨record, hmem, hid, hH, hT, hD, hP⟩

/-- A concrete re-fetched MX record used to witness the matcher. -/
def mxResolvedSample : DnsRecordInfo :=
  { ID := "7", Hostname := "mail", Typ := "MX",
    Priority := "10", Destination := "target" }

/-- C5 witness: a concrete MX resolution with non-empty priority yields a
record agreeing on all matched fields including the priority. -/
theorem C5_witness :
    ∃ record ∈ [mxResolvedSample],
      record.ID = "7" ∧ record.Hostname = "mail" ∧ record.Typ = "MX" ∧
        record.Destination = "target" ∧ record.Priority = "10" :=
  (C5_match_priority_only_for_MX [mxResolvedSample]
      "mail" "target" "10" "x" "y" "7").2 (by decide) rfl

/- ### Delete (`netcup_client.go`, `DeleteDnsRecord`) -/

/-- The marking loop of `NetcupClient.DeleteDnsRecord`: set the tombstone
flag on the first record whose id matches (the loop breaks after the first
hit), reporting whether a record was found. -/
def markForDeletion : List DnsRecordInfo → String → List DnsRecordInfo × Bool
  | [], _ => ([], false)
  | record :: rest, recordID =>
    if record.ID == recordID then
      ({ record with DeleteRecord := true } :: rest, true)
    else
      let (rest', found) := markForDeletion rest recordID
      (record :: rest', found)

/-- `NetcupClient.DeleteDnsRecord` after a successful login and fetch: if
no fetched record carries the requested id the call returns success
without submitting anything; otherwise the marked full set is submitted.
The Boolean component records whether a backend write was performed. -/
def deleteDnsRecord (recordID : String) (existingRecords : List DnsRecordInfo)
    (submitSet : List DnsRecordInfo → Except String Unit) :
    Except String Unit × Bool :=
  let (marked, found) := markForDeletion existingRecords recordID
  if found then
    match submitSet marked with
    | .ok _ => (.ok (), true)
    | .error e => (.error ("failed to delete DNS record: " ++ e), true)
  else
    (.ok (), false)

lemma markForDeletion_not_found {recordID : String} :
    ∀ {records : List DnsRecordInfo},
      (∀ record ∈ records, record.ID ≠ recordID) →
      markForDeletion records recordID = (records, false) := by
  intro records
  induction records with
  | nil => intro _; rfl
  | cons r rest ih =>
    intro h
    have hr : (r.ID == recordID) = false := by
      rw [beq_eq_false_iff_ne]
      exact h r (List.mem_cons_self r rest)
    have hrest := ih (fun x hx => h x (List.mem_cons_of_mem r hx))
    simp [markForDeletion, hr, hrest]

/-- C9: deleting a composite id whose record id is absent from the fetched
set returns success and performs no backend write, whatever the submit
behaviour would have been — an idempotent delete. -/
theorem C9_delete_absent_is_success_without_write (recordID : String)
    (existingRecords : List DnsRecordInfo)
    (submitSet : List DnsRecordInfo → Except String Unit)
    (h : ∀ record ∈ existingRecords, record.ID ≠ recordID) :
    deleteDnsRecord recordID existingRecords submitSet = (.ok (), false) := by
  unfold deleteDnsRecord
  rw [markForDeletion_not_found h]
  rfl

/-- C9 witness: deleting an id not present in a concrete fetched set
succeeds without a write even though any submission would have failed. -/
theorem C9_witness :
    deleteDnsRecord "999"
      [{ ID := "1", Hostname := "www", Typ := "A",
         Priority := "", Destination := "1.2.3.4" }]
      (fun _ => .error "backend unavailable") = (.ok (), false) :=
  C9_delete_absent_is_success_without_write "999" _ _ (by decide)

/- ### Read (`dns_record.go` `Read`, `netcup_client.go` `GetDnsRecordById`) -/

/-- The outcome of the backend `infoDnsRecords` exchange: either a
non-success status (long message and status code) or the parsed record
list. -/
inductive FetchOutcome where
  | failure (longMessage : String) (statusCode : Int)
  | records (dnsrecords : List DnsRecordInfo)

/-- The non-success error message of `GetDnsRecordById`:
`"get DNS records failed: %s (status code: %d)"`. -/
def getFailMsg (longMessage : String) (statusCode : Int) : String :=
  "get DNS records failed: " ++ longMessage ++ " (status code: " ++
    toString statusCode ++ ")"

/-- `NetcupClient.GetDnsRecordById` after login, as a function of the
fetch outcome: on success, scan for the first record carrying the
requested id. -/
def getDnsRecordById (recordID : String) (outcome : FetchOutcome) :
    Except String DnsRecordInfo :=
  match outcome with
  | .failure lm code => .error (getFailMsg lm code)
  | .records rs =>
    match rs.find? (fun record => record.ID == recordID) with
    | some record => .ok record
    | none => .error ("DNS record not found: " ++ recordID)

/-- `isNotFoundError` from `dns_record.go`: the error message, lowercased,
is searched for the listed substrings (the Go `err == nil` branch does not
arise here: `Read` classifies only non-nil errors). -/
def isNotFoundError (errMsg : String) : Bool :=
  goContains (goToLower errMsg) "dns record not found" ||
  goContains (goToLower errMsg) "not found" ||
  goContains (goToLower errMsg) "record not found" ||
  goContains (goToLower errMsg) "domain not found" ||
  goContains (goToLower errMsg) "status code: 2016"

/-- The three observable outcomes of `DNSRecord.Read`. -/
inductive ReadResult where
  | absent
  | found (inputs : DNSRecordArgs) (state : DNSRecordState)
  | failed (msg : String)

/-- The classification step of `DNSRecord.Read` applied to the result of
`GetDNSRecordByID`: a not-found-classified error becomes the empty
(absent) response, any other error is surfaced, and a record is converted
back into inputs and state (priority pointer nil when the remote priority
is empty or "0"). -/
def readClassify (domain recordID : String)
    (res : Except String DnsRecordInfo) : ReadResult :=
  match res with
  | .error e =>
    if isNotFoundError e then .absent
    else .failed ("failed to read DNS record " ++ recordID ++ ": " ++ e)
  | .ok currentRecord =>
    let priority := if currentRecord.Priority != "" && currentRecord.Priority != "0"
      then some currentRecord.Priority else none
    let inputs : DNSRecordArgs :=
      { Domain := domain, Name := currentRecord.Hostname,
        Typ := currentRecord.Typ, Value := currentRecord.Destination,
        Priority := priority }
    .found inputs
      { toDNSRecordArgs := inputs, RecordID := recordID,
        FQDN := buildFQDN currentRecord.Hostname domain }

/-- `DNSRecord.Read` from `dns_record.go`: decode the composite id, fetch
the record by id, then classify. -/
def readOp (compositeID : String) (outcome : FetchOutcome) : ReadResult :=
  match parseCompositeID compositeID with
  | .error e => .failed ("invalid resource ID format: " ++ e)
  | .ok (domain, recordID) =>
      readClassify domain recordID (getDnsRecordById recordID outcome)

lemma goContains_of_substring {s sub : String} (h : sub.data <:+: s.data) :
    goContains s sub = true := decide_eq_true h

lemma isNotFoundError_dns_record_not_found (rid : String) :
    isNotFoundError ("DNS record not found: " ++ rid) = true := by
  have hdata : (goToLower ("DNS record not found: " ++ rid)).data =
      "dns record not found: ".data ++ rid.data.map Char.toLower := by
    show ("DNS record not found: " ++ rid).data.map Char.toLower = _
    rw [String.data_append, List.map_append]
    congr 1
  have hinf : "dns record not found".data <:+:
      (goToLower ("DNS record not found: " ++ rid)).data := by
    rw [hdata]
    refine ⟨[], ": ".data ++ rid.data.map Char.toLower, ?_⟩
    rw [List.nil_append, ← List.append_assoc]
    congr 1
  unfold isNotFoundError
  rw [goContains_of_substring hinf]
  simp

lemma isNotFoundError_code2016 (lm : String) :
    isNotFoundError (getFailMsg lm 2016) = true := by
  have hdata : (goToLower (getFailMsg lm 2016)).data =
      "get dns records failed: ".data ++ lm.data.map Char.toLower ++
        " (status code: 2016)".data := by
    show (getFailMsg lm 2016).data.map Char.toLower = _
    unfold getFailMsg
    simp only [String.data_append, List.map_append, List.append_assoc]
    congr 1
  have hinf : "status code: 2016".data <:+: (goToLower (getFailMsg lm 2016)).data := by
    rw [hdata]
    refine ⟨"get dns records failed: ".data ++ lm.data.map Char.toLower ++
      " (".data, ")".data, ?_⟩
    simp only [List.append_assoc]
    congr 2
  unfold isNotFoundError
  rw [goContains_of_substring hinf]
  simp

/-- C3 (amended): Read signals absence when the record is missing from a
successfully fetched set, but ALSO for every backend failure whose message
matches a not-found pattern — in particular, every failure with status
code 2016 (domain not found / not accessible) is classified as absence
rather than surfaced as an error, whatever its long message; only failures
matching none of the patterns are surfaced as read errors. -/
theorem C3_read_absence_classification (domain recordID lm : String)
    (code : Int) (rs : List DnsRecordInfo) :
    ((∀ record ∈ rs, record.ID ≠ recordID) →
      readClassify domain recordID (getDnsRecordById recordID (.records rs)) = .absent)
    ∧ (readClassify domain recordID
        (getDnsRecordById recordID (.failure lm 2016)) = .absent)
    ∧ (isNotFoundError (getFailMsg lm code) = false →
      readClassify domain recordID (getDnsRecordById recordID (.failure lm code)) =
        .failed ("failed to read DNS record " ++ recordID ++ ": " ++ getFailMsg lm code)) := by
  refine ⟨?_, ?_, ?_⟩
  · intro h
    have hfind : rs.find? (fun record => record.ID == recordID) = none := by
      rw [List.find?_eq_none]
      intro x hx
      simpa using h x hx
    simp [getDnsRecordById, hfind, readClassify,
      isNotFoundError_dns_record_not_found]
  · simp [getDnsRecordById, readClassify, isNotFoundError_code2016]
  · intro h
    simp [getDnsRecordById, readClassify, h]

set_option maxRecDepth 4000 in
/-- C3 witness: at concrete inputs, a fetched set without the record id
yields absence, and a failure matching no pattern is surfaced as an
error. -/
theorem C3_witness :
    (readClassify "example.com" "8"
      (getDnsRecordById "8" (.records [mxResolvedSample])) = .absent) ∧
    (readClassify "example.com" "8"
      (getDnsRecordById "8" (.failure "x" 2057)) =
        .failed ("failed to read DNS record 8: " ++ getFailMsg "x" 2057)) :=
  ⟨(C3_read_absence_classification "example.com" "8" "x"
      2057 [mxResolvedSample]).1 (by decide),
    (C3_read_absence_classification "example.com" "8" "x"
      2057 [mxResolvedSample]).2.2 (by decide)⟩

/-- C3 counterexample: a backend failure with status code 2016 — a
domain-inaccessible error, not a missing record — is classified by Read as
absence (the empty, non-error response), refuting that such a failure is
always surfaced as an error. -/
theorem C3_counterexample :
    readOp "example.com:12345" (.failure "Zone in wrong state" 2016) = .absent := by
  have hid : parseCompositeID "example.com:12345" = .ok ("example.com", "12345") := rfl
  unfold readOp
  rw [hid]
  simp [getDnsRecordById, readClassify, isNotFoundError_code2016]

/- ### Reconciler Create and Update (`dns_record.go`) with call traces -/

/-- One `NetcupClient` method invocation; each entails at least one
backend round trip (login, the operation, logout). -/
inductive ClientCall where
  | createRecord (domain name recordType value priority : String)
  | getById (recordID domain : String)
  | updateRecord (recordID domain name recordType value priority : String)

/-- The behaviour of the Netcup client, as response functions (the network
is abstracted; the reconciler code under verification is untouched). -/
structure ClientEnv where
  createRecord : String → String → String → String → String → Except String String
  getById : String → String → Except String DnsRecordInfo
  updateRecord : String → String → String → String → String → String → Except String Unit

/-- The preview state returned by the dry-run branch of `Create`. -/
def previewState (input : DNSRecordArgs) : DNSRecordState :=
  { toDNSRecordArgs := input, RecordID := "preview-id",
    FQDN := buildFQDN input.Name input.Domain }

/-- `DNSRecord.Create` from `dns_record.go`: the dry-run branch precedes
validation and returns the placeholder composite id without any client
call; otherwise validation (the Go failure rendering is abbreviated to a
fixed prefix), then the client's create call.  The second component is
the trace of client calls performed. -/
def createOp (dryRun : Bool) (input : DNSRecordArgs) (env : ClientEnv) :
    Except String (String × DNSRecordState) × List ClientCall :=
  if dryRun then
    (.ok (createCompositeID input.Domain "preview-id", previewState input), [])
  else if validateDNSRecordWithFailures input ≠ [] then
    (.error "validation failed", [])
  else
    let priority := input.Priority.getD ""
    match env.createRecord input.Domain input.Name input.Typ input.Value priority with
    | .error e =>
      (.error ("failed to create DNS record: " ++ e),
        [.createRecord input.Domain input.Name input.Typ input.Value priority])
    | .ok recordID =>
      (.ok (createCompositeID input.Domain recordID,
        { toDNSRecordArgs := input, RecordID := recordID,
          FQDN := buildFQDN input.Name input.Domain }),
        [.createRecord input.Domain input.Name input.Typ input.Value priority])

/-- `DNSRecord.Update` from `dns_record.go`.  The update request carries a
dry-run flag, but the implementation never consults it: validation, id
decoding, the existence check (`GetDNSRecordByID`) and the update call all
run unconditionally.  The unused `dryRun` parameter is retained so that
this can be stated. -/
def updateOp (dryRun : Bool) (id : String) (inputs : DNSRecordArgs)
    (env : ClientEnv) : Except String DNSRecordState × List ClientCall :=
  if validateDNSRecordWithFailures inputs ≠ [] then
    (.error "validation failed", [])
  else
    match parseCompositeID id with
    | .error _ => (.error "invalid resource ID", [])
    | .ok (domain, recordID) =>
      match env.getById recordID domain with
      | .error e =>
        (.error ("failed to find existing DNS record for update: " ++ e),
          [.getById recordID domain])
      | .ok _ =>
        let priority := inputs.Priority.getD ""
        match env.updateRecord recordID domain inputs.Name inputs.Typ
            inputs.Value priority with
        | .error e =>
          (.error ("failed to update DNS record: " ++ e),
            [.getById recordID domain,
              .updateRecord recordID domain inputs.Name inputs.Typ
                inputs.Value priority])
        | .ok _ =>
          (.ok { toDNSRecordArgs := inputs, RecordID := recordID,
                 FQDN := buildFQDN inputs.Name inputs.Domain },
            [.getById recordID domain,
              .updateRecord recordID domain inputs.Name inputs.Typ
                inputs.Value priority])

/-- Valid sample inputs (they pass validation). -/
def sampleArgs : DNSRecordArgs :=
  { Domain := "example.com", Name := "www", Typ := "A",
    Value := "1.2.3.4", Priority := none }

/-- A sample client whose calls all succeed. -/
def sampleEnv : ClientEnv :=
  { createRecord := fun _ _ _ _ _ => .ok "4242"
    getById := fun rid _ => .ok { ID := rid, Hostname := "www", Typ := "A",
                                  Priority := "", Destination := "1.2.3.4" }
    updateRecord := fun _ _ _ _ _ _ => .ok () }

/-- C4: the dry-run contract holds for Create — the flag short-circuits
every client call and yields the placeholder — but not for Update: the
implementation ignores the flag entirely (its result never depends on it),
and on valid concrete inputs an update with the dry-run flag set still
performs the existence-check and update backend calls. -/
theorem C4_dryrun_create_only :
    (∀ (input : DNSRecordArgs) (env : ClientEnv),
      createOp true input env =
        (.ok (createCompositeID input.Domain "preview-id", previewState input), []))
    ∧ (∀ (dr : Bool) (id : String) (inputs : DNSRecordArgs) (env : ClientEnv),
        updateOp dr id inputs env = updateOp true id inputs env)
    ∧ (updateOp true "example.com:4242" sampleArgs sampleEnv).2 =
        [.getById "4242" "example.com",
          .updateRecord "4242" "example.com" "www" "A" "1.2.3.4" ""] :=
  ⟨fun _ _ => rfl, fun _ _ _ _ => rfl, rfl⟩

/-- C10: any input that fails validation still yields, under dry run, the
successful preview response with placeholder id "preview-id" and an empty
call trace — validation runs only on the non-dry-run path of Create. -/
theorem C10_dryrun_skips_validation (input : DNSRecordArgs) (env : ClientEnv)
    (hInvalid : validateDNSRecordWithFailures input ≠ []) :
    createOp true input env =
      (.ok (createCompositeID input.Domain "preview-id", previewState input), []) :=
  rfl

/-- C10 witness: an MX record with no priority fails validation, yet its
dry-run creation returns the preview response with no client call. -/
theorem C10_witness :
    createOp true ⟨"example.com", "mail", "MX", "mail.example.com", none⟩ sampleEnv =
      (.ok (createCompositeID "example.com" "preview-id",
        previewState ⟨"example.com", "mail", "MX", "mail.example.com", none⟩), []) :=
  C10_dryrun_skips_validation _ sampleEnv (by decide)

end Netcup
